import Mathlib

/-!
Shallow embedding of the Multi-Paxos core from src/src/multi_paxos.rs and
src/src/message.rs. Values are a type parameter V with decidable equality
(the Rust code requires PartialEq on T). UUIDs are modelled as natural
numbers. Rust HashMap values that are only accessed through
entry().or_default() are modelled as total functions Nat -> State; the
learned-value maps, which are iterated and sent on the wire, are modelled
as association lists with HashMap-style insert (replace the first matching
key, else append). A Rust panic (assert_eq failure or Option::unwrap on
None) is modelled by returning none.
-/

namespace MultiPaxos

/-- Lookup of a key in an association list, mirroring HashMap::get. -/
def lookupA {V : Type} : List (Nat × V) → Nat → Option V
  | [], _ => none
  | kv :: rest, k => if kv.1 = k then some kv.2 else lookupA rest k

/-- Insert of a key into an association list, mirroring HashMap::insert:
replace the entry of an existing key, otherwise append. -/
def insertA {V : Type} : List (Nat × V) → Nat → V → List (Nat × V)
  | [], k, v => [(k, v)]
  | kv :: rest, k, v => if kv.1 = k then (k, v) :: rest else kv :: insertA rest k v

/-- Message destinations: each send in the source targets one of the three
role group addresses. -/
inductive Dest : Type
  | proposers
  | acceptors
  | learners
deriving DecidableEq, Repr

/-- Request message (message.rs, Phase0a). -/
structure Request (V : Type) where
  value : V
  sender_uuid : Nat
deriving DecidableEq, Repr

/-- CatchUp message (message.rs, Phase0b). -/
structure CatchUp where
  sender_uuid : Nat
  sender_type : Char
deriving DecidableEq, Repr

/-- Report message (message.rs, Phase0c). -/
structure Report (V : Type) where
  num_of_instances : Nat
  learned_values : List (Nat × V)
  sender_uuid : Nat
  receiver_uuid : Nat
deriving DecidableEq, Repr

/-- Preparation message (message.rs, Phase1a). The source field named by
the Lean keyword for instances is rendered as inst. -/
structure Preparation where
  c_rnd : Nat
  sender_uuid : Nat
  inst : Nat
deriving DecidableEq, Repr

/-- Promise message (message.rs, Phase1b). -/
structure Promise (V : Type) where
  rnd : Nat
  v_rnd : Nat
  v_val : Option V
  sender_uuid : Nat
  receiver_uuid : Nat
  inst : Nat
deriving DecidableEq, Repr

/-- Nack message (message.rs, Phase1c); reserved, never emitted. -/
structure Nack where
  v_rnd : Nat
  sender_uuid : Nat
  receiver_uuid : Nat
  inst : Nat
deriving DecidableEq, Repr

/-- Proposal message (message.rs, Phase2a). -/
structure Proposal (V : Type) where
  c_rnd : Nat
  c_val : Option V
  sender_uuid : Nat
  inst : Nat
deriving DecidableEq, Repr

/-- Acceptance message (message.rs, Phase2b). -/
structure Acceptance (V : Type) where
  v_rnd : Nat
  v_val : Option V
  sender_uuid : Nat
  receiver_uuid : Nat
  inst : Nat
deriving DecidableEq, Repr

/-- Learning message (message.rs, Phase3). -/
structure Learning (V : Type) where
  learned_value : V
  sender_uuid : Nat
  inst : Nat
deriving DecidableEq, Repr

/-- The tagged union of all wire messages (message.rs, enum Message). -/
inductive Message (V : Type) : Type
  | Phase0a (r : Request V)
  | Phase0b (c : CatchUp)
  | Phase0c (r : Report V)
  | Phase1a (p : Preparation)
  | Phase1b (p : Promise V)
  | Phase1c (n : Nack)
  | Phase2a (p : Proposal V)
  | Phase2b (a : Acceptance V)
  | Phase3 (l : Learning V)
deriving DecidableEq, Repr

/-- Per-instance proposer record (multi_paxos.rs, struct ProposerState). -/
structure ProposerState (V : Type) where
  value : Option V
  c_rnd : Nat
  c_val : Option V
  rnd_received : List Nat
  highest_v_rnd_received : Nat
  associated_v_val_received : Option V
  v_rnd_received : List Nat
deriving DecidableEq, Repr

/-- Default per-instance proposer record (impl Default for ProposerState). -/
def ProposerState.default {V : Type} : ProposerState V :=
  ⟨none, 0, none, [], 0, none, []⟩

/-- Pointwise map update used to model writing back through
entry().or_default(). -/
def updState {α : Type} (f : Nat → α) (i : Nat) (s : α) : Nat → α :=
  fun j => if j = i then s else f j

/-- Proposer global state (multi_paxos.rs, struct Proposer). The network
node and the three group addresses live outside the core model; sends are
returned as a list of destination-tagged messages. -/
structure Proposer (V : Type) where
  uuid : Nat
  id : Nat
  proposer_states : Nat → ProposerState V
  majority_of_acceptors : Nat
  num_of_instances : Nat
  learned_values : List (Nat × V)

/-- Proposer constructor (Proposer::new). -/
def Proposer.new {V : Type} (uuid id num_of_acceptors : Nat) : Proposer V :=
  ⟨uuid, id, fun _ => ProposerState.default, num_of_acceptors / 2 + 1, 0, []⟩

/-- Proposer::prepare — start a new instance on a client Request. -/
def Proposer.prepare {V : Type} (p : Proposer V) (value : V) :
    Proposer V × List (Dest × Message V) :=
  let n := p.num_of_instances + 1
  let st := p.proposer_states n
  let st1 := { st with value := some value, c_rnd := (st.c_rnd + 1) * p.id }
  ({ p with num_of_instances := n, proposer_states := updState p.proposer_states n st1 },
   [(Dest.acceptors, Message.Phase1a ⟨st1.c_rnd, p.uuid, n⟩)])

/-- Proposer::propose — account a Promise and send a Proposal once a
majority of rnd values, all equal to c_rnd, has been received. -/
def Proposer.propose {V : Type} (p : Proposer V) (rnd v_rnd : Nat)
    (v_val : Option V) (inst : Nat) : Proposer V × List (Dest × Message V) :=
  let st := p.proposer_states inst
  let st1 := { st with rnd_received := st.rnd_received ++ [rnd] }
  let st2 := if st1.highest_v_rnd_received < v_rnd then
      { st1 with highest_v_rnd_received := v_rnd, associated_v_val_received := v_val }
    else st1
  if st2.rnd_received.length < p.majority_of_acceptors then
    ({ p with proposer_states := updState p.proposer_states inst st2 }, [])
  else if ∀ r ∈ st2.rnd_received, r = st2.c_rnd then
    let st3 := { st2 with
      c_val := if st2.highest_v_rnd_received = 0 then st2.value
               else st2.associated_v_val_received }
    ({ p with proposer_states := updState p.proposer_states inst st3 },
     [(Dest.acceptors, Message.Phase2a ⟨st3.c_rnd, st3.c_val, p.uuid, inst⟩)])
  else
    ({ p with proposer_states := updState p.proposer_states inst st2 }, [])

/-- Proposer::decide — account an Acceptance, record the learned value, and
send a Learning once a majority of v_rnd values, all equal to c_rnd, has
been received. The two runtime assertions and the unwrap of c_val are
modelled by returning none. -/
def Proposer.decideStep {V : Type} [DecidableEq V] (p : Proposer V)
    (v_rnd : Nat) (v_val : V) (inst : Nat) :
    Option (Proposer V × List (Dest × Message V)) :=
  let st := p.proposer_states inst
  let st1 := { st with v_rnd_received := st.v_rnd_received ++ [v_rnd] }
  let p1 := { p with proposer_states := updState p.proposer_states inst st1 }
  if st1.v_rnd_received.length < p.majority_of_acceptors then some (p1, [])
  else
    let prev := lookupA p.learned_values inst
    let p2 := { p1 with learned_values := insertA p.learned_values inst v_val }
    let rest : Option (Proposer V × List (Dest × Message V)) :=
      if ∀ r ∈ st1.v_rnd_received, r = st1.c_rnd then
        match st1.c_val with
        | some cv =>
          if v_val = cv then
            some (p2, [(Dest.learners, Message.Phase3 ⟨v_val, p.uuid, inst⟩)])
          else none
        | none => none
      else some (p2, [])
    match prev with
    | some v => if v = v_val then rest else none
    | none => rest

/-- Proposer::report — answer a CatchUp with a Report, addressed to the
learner group when the requester is a learner, else to the proposer group. -/
def Proposer.reportTo {V : Type} (p : Proposer V) (sender_uid : Nat)
    (sender_type : Char) : List (Dest × Message V) :=
  [((if sender_type = 'l' then Dest.learners else Dest.proposers),
    Message.Phase0c ⟨p.num_of_instances, p.learned_values, p.uuid, sender_uid⟩)]

/-- Proposer::handle_request. -/
def Proposer.handleRequest {V : Type} (p : Proposer V) (r : Request V) :
    Proposer V × List (Dest × Message V) :=
  p.prepare r.value

/-- Proposer::handle_catch_up — answer unless the sender is this process. -/
def Proposer.handleCatchUp {V : Type} (p : Proposer V) (c : CatchUp) :
    Proposer V × List (Dest × Message V) :=
  if c.sender_uuid ≠ p.uuid then (p, p.reportTo c.sender_uuid c.sender_type)
  else (p, [])

/-- Proposer::handle_report — receiver-filtered state adoption. -/
def Proposer.handleReport {V : Type} (p : Proposer V) (r : Report V) :
    Proposer V × List (Dest × Message V) :=
  if r.receiver_uuid = p.uuid then
    ({ p with num_of_instances := r.num_of_instances, learned_values := r.learned_values }, [])
  else (p, [])

/-- Proposer::handle_promise — receiver-filtered call into propose. -/
def Proposer.handlePromise {V : Type} (p : Proposer V) (pr : Promise V) :
    Proposer V × List (Dest × Message V) :=
  if pr.receiver_uuid = p.uuid then p.propose pr.rnd pr.v_rnd pr.v_val pr.inst
  else (p, [])

/-- Proposer::handle_acceptance — no receiver filter; panics when v_val is
None, else calls decide. -/
def Proposer.handleAcceptance {V : Type} [DecidableEq V] (p : Proposer V)
    (a : Acceptance V) : Option (Proposer V × List (Dest × Message V)) :=
  match a.v_val with
  | some v => p.decideStep a.v_rnd v a.inst
  | none => none

/-- The dispatch of the proposer run loop (impl Runnable for Proposer):
Phase0a, Phase0b, Phase0c, Phase1b, Phase2b are handled, every other
variant is ignored. -/
def Proposer.handleMessage {V : Type} [DecidableEq V] (p : Proposer V)
    (m : Message V) : Option (Proposer V × List (Dest × Message V)) :=
  match m with
  | Message.Phase0a r => some (p.handleRequest r)
  | Message.Phase0b c => some (p.handleCatchUp c)
  | Message.Phase0c r => some (p.handleReport r)
  | Message.Phase1b pr => some (p.handlePromise pr)
  | Message.Phase2b a => p.handleAcceptance a
  | _ => some (p, [])

/-- Per-instance acceptor record (multi_paxos.rs, struct AcceptorState). -/
structure AcceptorState (V : Type) where
  rnd : Nat
  v_rnd : Nat
  v_val : Option V
deriving DecidableEq, Repr

/-- Default per-instance acceptor record (impl Default for AcceptorState). -/
def AcceptorState.default {V : Type} : AcceptorState V := ⟨0, 0, none⟩

/-- Acceptor global state (multi_paxos.rs, struct Acceptor). -/
structure Acceptor (V : Type) where
  uuid : Nat
  id : Nat
  acceptor_states : Nat → AcceptorState V

/-- Acceptor constructor (Acceptor::new). -/
def Acceptor.new {V : Type} (uuid id : Nat) : Acceptor V :=
  ⟨uuid, id, fun _ => AcceptorState.default⟩

/-- Acceptor::promise — on a Preparation, promise iff c_rnd > rnd; the
Promise sent carries the updated rnd together with the stored vote. -/
def Acceptor.promise {V : Type} (a : Acceptor V) (c_rnd sender_uid inst : Nat) :
    Acceptor V × List (Dest × Message V) :=
  let st := a.acceptor_states inst
  if st.rnd < c_rnd then
    let st1 := { st with rnd := c_rnd }
    ({ a with acceptor_states := updState a.acceptor_states inst st1 },
     [(Dest.proposers,
       Message.Phase1b ⟨st1.rnd, st1.v_rnd, st1.v_val, a.uuid, sender_uid, inst⟩)])
  else (a, [])

/-- Acceptor::accept — on a Proposal, vote iff c_rnd >= rnd; rnd itself is
not modified by a vote. -/
def Acceptor.accept {V : Type} (a : Acceptor V) (c_rnd : Nat) (c_val : V)
    (sender_uid inst : Nat) : Acceptor V × List (Dest × Message V) :=
  let st := a.acceptor_states inst
  if st.rnd ≤ c_rnd then
    let st1 := { st with v_rnd := c_rnd, v_val := some c_val }
    ({ a with acceptor_states := updState a.acceptor_states inst st1 },
     [(Dest.proposers,
       Message.Phase2b ⟨st1.v_rnd, st1.v_val, a.uuid, sender_uid, inst⟩)])
  else (a, [])

/-- Acceptor::handle_preparation. -/
def Acceptor.handlePreparation {V : Type} (a : Acceptor V) (pr : Preparation) :
    Acceptor V × List (Dest × Message V) :=
  a.promise pr.c_rnd pr.sender_uuid pr.inst

/-- Acceptor::handle_proposal — panics when c_val is None. -/
def Acceptor.handleProposal {V : Type} (a : Acceptor V) (pr : Proposal V) :
    Option (Acceptor V × List (Dest × Message V)) :=
  match pr.c_val with
  | some c_val => some (a.accept pr.c_rnd c_val pr.sender_uuid pr.inst)
  | none => none

/-- The dispatch of the acceptor run loop: Phase1a and Phase2a are handled,
every other variant is ignored. -/
def Acceptor.handleMessage {V : Type} (a : Acceptor V) (m : Message V) :
    Option (Acceptor V × List (Dest × Message V)) :=
  match m with
  | Message.Phase1a pr => some (a.handlePreparation pr)
  | Message.Phase2a pr => a.handleProposal pr
  | _ => some (a, [])

/-- Run a list of messages through one acceptor, collecting its sends. -/
def Acceptor.runMsgs {V : Type} (a : Acceptor V) :
    List (Message V) → Option (Acceptor V × List (Dest × Message V))
  | [] => some (a, [])
  | m :: ms => do
    let r1 ← a.handleMessage m
    let r2 ← r1.1.runMsgs ms
    some (r2.1, r1.2 ++ r2.2)

/-- Learner global state (multi_paxos.rs, struct Learner). The counter
num_of_instances is the next instance to print (the spec calls it
next_to_deliver). -/
structure Learner (V : Type) where
  uuid : Nat
  id : Nat
  learned_values : List (Nat × V)
  num_of_instances : Nat

/-- Learner constructor (Learner::new); the delivery counter starts at 1. -/
def Learner.new {V : Type} (uuid id : Nat) : Learner V :=
  ⟨uuid, id, [], 1⟩

/-- The print-while loop of Learner::print_learned_values, with an explicit
fuel bound on the number of iterations. Each emission is instrumented with
the instance number it prints for. The while loop iterates while the
current counter is a key of the map, so it runs at most as many times as
the map has entries with key at least the starting counter; any fuel at
least that number computes the exact loop result (see printFuel_spec). -/
def printFuel {V : Type} (lv : List (Nat × V)) : Nat → Nat → List (Nat × V) × Nat
  | n, 0 => ([], n)
  | n, fuel + 1 =>
    match lookupA lv n with
    | some v =>
      let r := printFuel lv (n + 1) fuel
      ((n, v) :: r.1, r.2)
    | none => ([], n)

/-- Entry point of the print loop, with fuel sufficient for the whole map:
the loop visits pairwise distinct keys that are at least the starting
counter, so the number of such entries bounds the iteration count. -/
def printLoop {V : Type} (lv : List (Nat × V)) (n : Nat) : List (Nat × V) × Nat :=
  printFuel lv n (countKeysGE lv n)
where
  /-- Number of entries whose key is at least n; an upper bound for the
  remaining iterations of the print loop. -/
  countKeysGE (lv : List (Nat × V)) (n : Nat) : Nat :=
    (lv.filter (fun kv => n ≤ kv.1)).length

/-- Learner::print_learned_values — print learned values in instance order
while the next instance is present in the map. -/
def Learner.printLearned {V : Type} (l : Learner V) : Learner V × List (Nat × V) :=
  let r := printLoop l.learned_values l.num_of_instances
  ({ l with num_of_instances := r.2 }, r.1)

/-- Learner::handle_report — receiver-filtered merge of the reported
learned values, then print. -/
def Learner.handleReport {V : Type} (l : Learner V) (r : Report V) :
    Learner V × List (Nat × V) :=
  if r.receiver_uuid = l.uuid then
    let lv := r.learned_values.foldl (fun acc kv => insertA acc kv.1 kv.2) l.learned_values
    Learner.printLearned { l with learned_values := lv }
  else (l, [])

/-- Learner::handle_learning — merge one learned value, asserting equality
with any previously stored value (assertion failure is none), then print. -/
def Learner.handleLearning {V : Type} [DecidableEq V] (l : Learner V)
    (g : Learning V) : Option (Learner V × List (Nat × V)) :=
  let prev := lookupA l.learned_values g.inst
  let l1 := { l with learned_values := insertA l.learned_values g.inst g.learned_value }
  match prev with
  | some v => if v = g.learned_value then some l1.printLearned else none
  | none => some l1.printLearned

/-- The dispatch of the learner run loop: Phase0c and Phase3 are handled,
every other variant is ignored. -/
def Learner.handleMessage {V : Type} [DecidableEq V] (l : Learner V)
    (m : Message V) : Option (Learner V × List (Nat × V)) :=
  match m with
  | Message.Phase0c r => some (l.handleReport r)
  | Message.Phase3 g => l.handleLearning g
  | _ => some (l, [])

/-- Run a list of messages through one learner, concatenating the
instrumented print outputs. -/
def Learner.runMsgs {V : Type} [DecidableEq V] (l : Learner V) :
    List (Message V) → Option (Learner V × List (Nat × V))
  | [] => some (l, [])
  | m :: ms => do
    let r1 ← l.handleMessage m
    let r2 ← r1.1.runMsgs ms
    some (r2.1, r1.2 ++ r2.2)

/-- Global state of the composed system: the role processes plus the set
of messages ever sent (the soup). Delivery reads a soup entry without
removing it, so the same send can be delivered to several group members
and several times to the same member (multicast with duplication);
entries that are never delivered model loss. -/
structure Sys (V : Type) where
  proposers : List (Proposer V)
  acceptors : List (Acceptor V)
  learners : List (Learner V)
  soup : List (Dest × Message V)

/-- One scheduling event: a client submitting a value to the proposer
group, or the delivery of one soup entry to one member of its destination
group. -/
inductive Event (V : Type) : Type
  | clientRequest (v : V) (cuuid : Nat)
  | toProposer (pidx midx : Nat)
  | toAcceptor (aidx midx : Nat)
  | toLearner (lidx midx : Nat)

/-- One step of the composed system. The result is none when the event is
not enabled (bad index, wrong destination group) or when the involved
handler panics. Learner prints are collected as
(learner index, instance, value) triples. -/
def Sys.step {V : Type} [DecidableEq V] (s : Sys V) (e : Event V) :
    Option (Sys V × List (Nat × Nat × V)) :=
  match e with
  | Event.clientRequest v cuuid =>
    some ({ s with soup := s.soup ++ [(Dest.proposers, Message.Phase0a ⟨v, cuuid⟩)] }, [])
  | Event.toProposer pidx midx => do
    let p ← s.proposers[pidx]?
    let dm ← s.soup[midx]?
    if dm.1 = Dest.proposers then do
      let r ← p.handleMessage dm.2
      some ({ s with proposers := s.proposers.set pidx r.1, soup := s.soup ++ r.2 }, [])
    else none
  | Event.toAcceptor aidx midx => do
    let a ← s.acceptors[aidx]?
    let dm ← s.soup[midx]?
    if dm.1 = Dest.acceptors then do
      let r ← a.handleMessage dm.2
      some ({ s with acceptors := s.acceptors.set aidx r.1, soup := s.soup ++ r.2 }, [])
    else none
  | Event.toLearner lidx midx => do
    let l ← s.learners[lidx]?
    let dm ← s.soup[midx]?
    if dm.1 = Dest.learners then do
      let r ← l.handleMessage dm.2
      some ({ s with learners := s.learners.set lidx r.1 },
            r.2.map (fun iv => (lidx, iv.1, iv.2)))
    else none

/-- Run a schedule of events from a system state, concatenating the
learner outputs. -/
def Sys.run {V : Type} [DecidableEq V] (s : Sys V) :
    List (Event V) → Option (Sys V × List (Nat × Nat × V))
  | [] => some (s, [])
  | e :: es => do
    let r1 ← s.step e
    let r2 ← r1.1.run es
    some (r2.1, r1.2 ++ r2.2)

/-- The value a given learner printed for a given instance in a collected
output list, if any. -/
def learnedAt {V : Type} (outs : List (Nat × Nat × V)) (lidx i : Nat) : Option V :=
  (outs.find? (fun o => o.1 == lidx && o.2.1 == i)).map (fun o => o.2.2)

/-- A concrete configuration with two proposers (ids 1 and 2), three
acceptors and two learners; uuids are 1..7. Majority is 3 / 2 + 1 = 2.
The initial soup holds the CatchUp messages the proposer and learner run
loops send on startup (they are never delivered in the runs below, which
the failure model allows). -/
def initSysC : Sys Nat :=
  { proposers := [Proposer.new 1 1 3, Proposer.new 2 2 3]
    acceptors := [Acceptor.new 3 1, Acceptor.new 4 2, Acceptor.new 5 3]
    learners := [Learner.new 6 1, Learner.new 7 2]
    soup := [(Dest.proposers, Message.Phase0b ⟨1, 'p'⟩),
             (Dest.proposers, Message.Phase0b ⟨2, 'p'⟩),
             (Dest.proposers, Message.Phase0b ⟨6, 'l'⟩),
             (Dest.proposers, Message.Phase0b ⟨7, 'l'⟩)] }

/-- A legal finite schedule for initSysC that uses only message loss,
reordering and one duplicated delivery (the ninth event re-delivers soup
entry 9, the Acceptance of acceptor 3). Client value 7 goes to proposer 1
and client value 9 to proposer 2; both proposers run instance 1. Proposer
1 reaches its quorum threshold of 2 by counting the same Acceptance twice
and sends Learning 7; proposer 2 reaches a genuine quorum of acceptors 2
and 3 (which never saw round 1 accepted) and sends Learning 9. Learner 0
receives only the first Learning, learner 1 only the second. -/
def eventsC1 : List (Event Nat) :=
  [Event.clientRequest 7 8,
   Event.toProposer 0 4,
   Event.toAcceptor 0 5,
   Event.toAcceptor 1 5,
   Event.toProposer 0 6,
   Event.toProposer 0 7,
   Event.toAcceptor 0 8,
   Event.toProposer 0 9,
   Event.toProposer 0 9,
   Event.toLearner 0 10,
   Event.clientRequest 9 9,
   Event.toProposer 1 11,
   Event.toAcceptor 1 12,
   Event.toAcceptor 2 12,
   Event.toProposer 1 13,
   Event.toProposer 1 14,
   Event.toAcceptor 1 15,
   Event.toAcceptor 2 15,
   Event.toProposer 1 16,
   Event.toProposer 1 17,
   Event.toLearner 1 18]

def Acceptor.withState {V : Type} (a : Acceptor V) (i : Nat) (st : AcceptorState V) :
    Acceptor V :=
  { a with acceptor_states := updState a.acceptor_states i st }

def Proposer.withState {V : Type} (p : Proposer V) (i : Nat) (st : ProposerState V) :
    Proposer V :=
  { p with proposer_states := updState p.proposer_states i st }

def ProposerState.afterPromise {V : Type} (st : ProposerState V) (rnd v_rnd : Nat)
    (v_val : Option V) : ProposerState V :=
  if st.highest_v_rnd_received < v_rnd then
    { st with rnd_received := st.rnd_received ++ [rnd],
              highest_v_rnd_received := v_rnd, associated_v_val_received := v_val }
  else { st with rnd_received := st.rnd_received ++ [rnd] }

def ProposerState.pickVal {V : Type} (st : ProposerState V) : Option V :=
  if st.highest_v_rnd_received = 0 then st.value else st.associated_v_val_received

def LInv {V : Type} (l : Learner V) : Prop :=
  lookupA l.learned_values l.num_of_instances = none

lemma afterPromise_rnd_received {V : Type} (st : ProposerState V) (rnd v_rnd : Nat)
    (v_val : Option V) :
    (st.afterPromise rnd v_rnd v_val).rnd_received = st.rnd_received ++ [rnd] := by
  unfold ProposerState.afterPromise
  split <;> rfl

lemma afterPromise_c_rnd {V : Type} (st : ProposerState V) (rnd v_rnd : Nat)
    (v_val : Option V) :
    (st.afterPromise rnd v_rnd v_val).c_rnd = st.c_rnd := by
  unfold ProposerState.afterPromise
  split <;> rfl

lemma afterPromise_value {V : Type} (st : ProposerState V) (rnd v_rnd : Nat)
    (v_val : Option V) :
    (st.afterPromise rnd v_rnd v_val).value = st.value := by
  unfold ProposerState.afterPromise
  split <;> rfl

lemma propose_eq {V : Type} (p : Proposer V) (rnd v_rnd : Nat) (v_val : Option V)
    (i : Nat) :
    p.propose rnd v_rnd v_val i =
      (if ((p.proposer_states i).afterPromise rnd v_rnd v_val).rnd_received.length
            < p.majority_of_acceptors then
        (p.withState i ((p.proposer_states i).afterPromise rnd v_rnd v_val), [])
      else if ∀ r ∈ ((p.proposer_states i).afterPromise rnd v_rnd v_val).rnd_received,
            r = ((p.proposer_states i).afterPromise rnd v_rnd v_val).c_rnd then
        (p.withState i
          { (p.proposer_states i).afterPromise rnd v_rnd v_val with
            c_val := ((p.proposer_states i).afterPromise rnd v_rnd v_val).pickVal },
         [(Dest.acceptors, Message.Phase2a
            ⟨((p.proposer_states i).afterPromise rnd v_rnd v_val).c_rnd,
             ((p.proposer_states i).afterPromise rnd v_rnd v_val).pickVal, p.uuid, i⟩)])
      else
        (p.withState i ((p.proposer_states i).afterPromise rnd v_rnd v_val), [])) := rfl

lemma withState_self {V : Type} (p : Proposer V) (i : Nat) (st : ProposerState V) :
    (p.withState i st).proposer_states i = st := by
  simp [Proposer.withState, updState]

lemma promise_rnd_mono {V : Type} (a : Acceptor V) (c f j i : Nat) :
    (a.acceptor_states i).rnd ≤ ((a.promise c f j).1.acceptor_states i).rnd := by
  simp only [Acceptor.promise]
  split
  · by_cases hij : i = j
    · subst hij
      simp only [updState, if_pos rfl]
      exact Nat.le_of_lt (by assumption)
    · simp [updState, hij]
  · exact Nat.le_refl _

lemma accept_rnd_eq {V : Type} (a : Acceptor V) (c : Nat) (v : V) (f j i : Nat) :
    ((a.accept c v f j).1.acceptor_states i).rnd = (a.acceptor_states i).rnd := by
  simp only [Acceptor.accept]
  split
  · by_cases hij : i = j
    · subst hij
      simp [updState]
    · simp [updState, hij]
  · simp

lemma handleMessage_rnd_mono {V : Type} (a : Acceptor V) (m : Message V)
    (r : Acceptor V × List (Dest × Message V)) (h : a.handleMessage m = some r)
    (i : Nat) : (a.acceptor_states i).rnd ≤ (r.1.acceptor_states i).rnd := by
  cases m <;> simp only [Acceptor.handleMessage] at h
  case Phase1a pr =>
    rw [Option.some_inj] at h
    subst h
    exact promise_rnd_mono a pr.c_rnd pr.sender_uuid pr.inst i
  case Phase2a pr =>
    unfold Acceptor.handleProposal at h
    cases hv : pr.c_val with
    | some cv =>
      rw [hv, Option.some_inj] at h
      subst h
      exact Nat.le_of_eq (accept_rnd_eq a pr.c_rnd cv pr.sender_uuid pr.inst i).symm
    | none =>
      rw [hv] at h
      cases h
  all_goals
    rw [Option.some_inj] at h
    subst h
    exact Nat.le_refl _

lemma runMsgs_rnd_mono {V : Type} (msgs : List (Message V)) :
    ∀ (a : Acceptor V) (r : Acceptor V × List (Dest × Message V)),
      a.runMsgs msgs = some r →
      ∀ i, (a.acceptor_states i).rnd ≤ (r.1.acceptor_states i).rnd := by
  induction msgs with
  | nil =>
    intro a r h i
    simp only [Acceptor.runMsgs, Option.some_inj] at h
    subst h
    exact Nat.le_refl _
  | cons m ms ih =>
    intro a r h i
    simp only [Acceptor.runMsgs, Option.bind_eq_bind, Option.bind_eq_some] at h
    obtain ⟨r1, h1, r2, h2, h3⟩ := h
    rw [Option.some_inj] at h3
    subst h3
    exact Nat.le_trans (handleMessage_rnd_mono a m r1 h1 i) (ih r1.1 r2 h2 i)

/-- Claim C5 amended. -/

lemma lookupA_some_count {V : Type} (lv : List (Nat × V)) (n : Nat) (v : V)
    (h : lookupA lv n = some v) : 0 < printLoop.countKeysGE lv n := by
  induction lv with
  | nil => cases h
  | cons kv rest ih =>
    unfold lookupA at h
    unfold printLoop.countKeysGE
    by_cases hk : kv.1 = n
    · rw [List.filter_cons_of_pos (by simpa using Nat.le_of_eq hk.symm)]
      exact Nat.succ_pos _
    · rw [if_neg hk] at h
      by_cases hle : n ≤ kv.1
      · rw [List.filter_cons_of_pos (by simpa using hle)]
        exact Nat.succ_pos _
      · rw [List.filter_cons_of_neg (by simpa using hle)]
        exact ih h

lemma countKeysGE_mono {V : Type} (lv : List (Nat × V)) (n : Nat) :
    printLoop.countKeysGE lv (n + 1) ≤ printLoop.countKeysGE lv n := by
  induction lv with
  | nil => exact Nat.le_refl _
  | cons kv rest ih =>
    unfold printLoop.countKeysGE at ih ⊢
    by_cases h1 : n + 1 ≤ kv.1
    · rw [List.filter_cons_of_pos (by simpa using h1),
          List.filter_cons_of_pos (by simpa using Nat.le_of_succ_le h1)]
      exact Nat.succ_le_succ ih
    · rw [List.filter_cons_of_neg (by simpa using h1)]
      by_cases h2 : n ≤ kv.1
      · rw [List.filter_cons_of_pos (by simpa using h2)]
        exact Nat.le_succ_of_le ih
      · rw [List.filter_cons_of_neg (by simpa using h2)]
        exact ih

lemma countKeysGE_lt {V : Type} (lv : List (Nat × V)) (n : Nat) (v : V)
    (h : lookupA lv n = some v) :
    printLoop.countKeysGE lv (n + 1) < printLoop.countKeysGE lv n := by
  induction lv with
  | nil => cases h
  | cons kv rest ih =>
    unfold lookupA at h
    unfold printLoop.countKeysGE at ih ⊢
    by_cases hk : kv.1 = n
    · rw [List.filter_cons_of_neg (by simp [hk]),
          List.filter_cons_of_pos (by simpa using Nat.le_of_eq hk.symm)]
      exact Nat.lt_succ_of_le (countKeysGE_mono rest n)
    · rw [if_neg hk] at h
      by_cases h1 : n + 1 ≤ kv.1
      · rw [List.filter_cons_of_pos (by simpa using h1),
            List.filter_cons_of_pos (by simpa using Nat.le_of_succ_le h1)]
        exact Nat.succ_lt_succ (ih h)
      · rw [List.filter_cons_of_neg (by simpa using h1)]
        by_cases h2 : n ≤ kv.1
        · rw [List.filter_cons_of_pos (by simpa using h2)]
          exact Nat.lt_succ_of_lt (ih h)
        · rw [List.filter_cons_of_neg (by simpa using h2)]
          exact ih h

lemma printFuel_spec {V : Type} (lv : List (Nat × V)) :
    ∀ (fuel n : Nat), printLoop.countKeysGE lv n ≤ fuel →
      (printFuel lv n fuel).1.map Prod.fst
          = List.range' n ((printFuel lv n fuel).2 - n)
      ∧ n ≤ (printFuel lv n fuel).2
      ∧ lookupA lv (printFuel lv n fuel).2 = none := by
  intro fuel
  induction fuel with
  | zero =>
    intro n hf
    cases hl : lookupA lv n with
    | some v => exact absurd (lookupA_some_count lv n v hl) (by omega)
    | none => exact ⟨by simp [printFuel], Nat.le_refl _, by simp [printFuel, hl]⟩
  | succ k ih =>
    intro n hf
    cases hl : lookupA lv n with
    | none =>
      refine ⟨?_, ?_, ?_⟩ <;> simp [printFuel, hl]
    | some v =>
      have hf2 : printLoop.countKeysGE lv (n + 1) ≤ k := by
        have := countKeysGE_lt lv n v hl
        omega
      obtain ⟨ih1, ih2, ih3⟩ := ih (n + 1) hf2
      have heq : printFuel lv n (k + 1)
          = ((n, v) :: (printFuel lv (n + 1) k).1, (printFuel lv (n + 1) k).2) := by
        simp [printFuel, hl]
      refine ⟨?_, ?_, ?_⟩
      · rw [heq]
        simp only [List.map_cons]
        rw [ih1]
        have harith : (printFuel lv (n + 1) k).2 - n
            = ((printFuel lv (n + 1) k).2 - (n + 1)) + 1 := by omega
        rw [harith, List.range'_succ]
      · rw [heq]
        exact Nat.le_of_succ_le ih2
      · rw [heq]
        exact ih3

lemma printLearned_spec {V : Type} (l : Learner V) :
    l.printLearned.2.map Prod.fst
        = List.range' l.num_of_instances (l.printLearned.1.num_of_instances - l.num_of_instances)
    ∧ l.num_of_instances ≤ l.printLearned.1.num_of_instances
    ∧ LInv l.printLearned.1 := by
  obtain ⟨h1, h2, h3⟩ := printFuel_spec l.learned_values
    (printLoop.countKeysGE l.learned_values l.num_of_instances) l.num_of_instances
    (Nat.le_refl _)
  unfold Learner.printLearned printLoop LInv
  exact ⟨h1, h2, h3⟩

lemma handleMessage_learner_spec {V : Type} [DecidableEq V] (l : Learner V)
    (m : Message V) (r : Learner V × List (Nat × V))
    (h : l.handleMessage m = some r) :
    r.2.map Prod.fst = List.range' l.num_of_instances (r.1.num_of_instances - l.num_of_instances)
    ∧ l.num_of_instances ≤ r.1.num_of_instances
    ∧ (LInv l → LInv r.1) := by
  cases m <;> simp only [Learner.handleMessage] at h
  case Phase0c rep =>
    unfold Learner.handleReport at h
    by_cases hrcv : rep.receiver_uuid = l.uuid
    · rw [if_pos hrcv, Option.some_inj] at h
      subst h
      obtain ⟨h1, h2, h3⟩ := printLearned_spec
        { l with learned_values :=
            rep.learned_values.foldl (fun acc kv => insertA acc kv.1 kv.2) l.learned_values }
      exact ⟨h1, h2, fun _ => h3⟩
    · rw [if_neg hrcv, Option.some_inj] at h
      subst h
      exact ⟨by simp, Nat.le_refl _, fun hi => hi⟩
  case Phase3 g =>
    unfold Learner.handleLearning at h
    cases hl : lookupA l.learned_values g.inst with
    | some v =>
      rw [hl] at h
      dsimp only at h
      by_cases hv : v = g.learned_value
      · rw [if_pos hv, Option.some_inj] at h
        subst h
        obtain ⟨h1, h2, h3⟩ := printLearned_spec
          { l with learned_values := insertA l.learned_values g.inst g.learned_value }
        exact ⟨h1, h2, fun _ => h3⟩
      · rw [if_neg hv] at h
        cases h
    | none =>
      rw [hl] at h
      dsimp only at h
      rw [Option.some_inj] at h
      subst h
      obtain ⟨h1, h2, h3⟩ := printLearned_spec
        { l with learned_values := insertA l.learned_values g.inst g.learned_value }
      exact ⟨h1, h2, fun _ => h3⟩
  all_goals
    rw [Option.some_inj] at h
    subst h
    exact ⟨by simp, Nat.le_refl _, fun hi => hi⟩

lemma runMsgs_learner_spec {V : Type} [DecidableEq V] (msgs : List (Message V)) :
    ∀ (l : Learner V) (r : Learner V × List (Nat × V)),
      l.runMsgs msgs = some r → LInv l →
      r.2.map Prod.fst
          = List.range' l.num_of_instances (r.1.num_of_instances - l.num_of_instances)
      ∧ l.num_of_instances ≤ r.1.num_of_instances
      ∧ LInv r.1 := by
  induction msgs with
  | nil =>
    intro l r h hinv
    simp only [Learner.runMsgs, Option.some_inj] at h
    subst h
    exact ⟨by simp, Nat.le_refl _, hinv⟩
  | cons m ms ih =>
    intro l r h hinv
    simp only [Learner.runMsgs, Option.bind_eq_bind, Option.bind_eq_some] at h
    obtain ⟨r1, h1, r2, h2, h3⟩ := h
    rw [Option.some_inj] at h3
    subst h3
    obtain ⟨s1, s2, s3⟩ := handleMessage_learner_spec l m r1 h1
    obtain ⟨t1, t2, t3⟩ := ih r1.1 r2 h2 (s3 hinv)
    refine ⟨?_, Nat.le_trans s2 t2, t3⟩
    simp only [List.map_append, s1, t1]
    have happ := List.range'_append l.num_of_instances
      (r1.1.num_of_instances - l.num_of_instances)
      (r2.1.num_of_instances - r1.1.num_of_instances) 1
    have e1 : l.num_of_instances + 1 * (r1.1.num_of_instances - l.num_of_instances)
        = r1.1.num_of_instances := by omega
    have e2 : r2.1.num_of_instances - r1.1.num_of_instances
        + (r1.1.num_of_instances - l.num_of_instances)
        = r2.1.num_of_instances - l.num_of_instances := by omega
    rw [e1, e2] at happ
    exact happ

lemma insertA_self {V : Type} (lv : List (Nat × V)) (k : Nat) (v : V)
    (h : lookupA lv k = some v) : insertA lv k v = lv := by
  induction lv with
  | nil => cases h
  | cons kv rest ih =>
    unfold lookupA at h
    unfold insertA
    by_cases hk : kv.1 = k
    · rw [if_pos hk]
      rw [if_pos hk, Option.some_inj] at h
      subst h
      rw [← hk]
    · rw [if_neg hk] at h
      rw [if_neg hk, ih h]

lemma printLearned_noop {V : Type} (l : Learner V) (h : LInv l) :
    l.printLearned = (l, []) := by
  unfold Learner.printLearned printLoop
  unfold LInv at h
  cases hc : printLoop.countKeysGE l.learned_values l.num_of_instances with
  | zero => simp [printFuel]
  | succ k => simp [printFuel, h]

/-- Claim C1 (code bug): agreement fails on the code. The schedule
eventsC1 is a finite run of the composed system under loss, duplication
and reordering in which no handler panics, learner 0 delivers value 7 for
instance 1 and learner 1 delivers value 9 for instance 1, and the two
proposers record the different learned values 7 and 9 for instance 1.
The root cause is that quorums are counted by message arrivals, not by
distinct acceptors, so a duplicated Acceptance lets a single acceptor
stand in for a majority. -/
theorem C1_agreement_violated_by_run :
    (initSysC.run eventsC1).map
        (fun r => (learnedAt r.2 0 1, learnedAt r.2 1 1,
                   lookupA (r.1.proposers.getD 0 (Proposer.new 0 0 0)).learned_values 1,
                   lookupA (r.1.proposers.getD 1 (Proposer.new 0 0 0)).learned_values 1))
      = some (some 7, some 9, some 7, some 9)
    ∧ (7 : Nat) ≠ 9 := by decide

/-- Claim C7 (code bug): the runtime safety assertion in Proposer::decide
is reachable. After the run eventsC1, proposer 0 has recorded learned
value 7 for instance 1, the soup contains the Acceptance with v_rnd 2 and
value 9 that acceptor 2 legitimately sent (soup entry 16), that
Acceptance carries a non-None v_val, and handling it at proposer 0 panics
(the assert that a previously recorded learned value equals the current
one fires, 7 against 9); accordingly the run extended by that delivery
aborts. -/
theorem C7_decide_assert_reachable :
    (initSysC.run eventsC1).map
        (fun r => (lookupA (r.1.proposers.getD 0 (Proposer.new 0 0 0)).learned_values 1,
                   decide ((Dest.proposers,
                     Message.Phase2b (⟨2, some 9, 4, 2, 1⟩ : Acceptance Nat)) ∈ r.1.soup),
                   ((r.1.proposers.getD 0 (Proposer.new 0 0 0)).handleAcceptance
                     ⟨2, some 9, 4, 2, 1⟩).isSome))
      = some (some 7, true, false)
    ∧ (initSysC.run (eventsC1 ++ [Event.toProposer 0 16])).isSome = false := by decide

/-- Claim C2 (confirmed): for every learner and every sequence of handled
messages, the sequence of values printed to standard output carries the
instance numbers 1, 2, ..., n-1 where n is the final delivery counter —
consecutive, gap-free and repeat-free, each instance only after all
smaller ones — and the delivery counter starts at 1 in Learner::new. -/
theorem C2_learner_in_order_delivery {V : Type} [DecidableEq V] (uuid id : Nat) (msgs : List (Message V))
    (l : Learner V) (outs : List (Nat × V))
    (h : (Learner.new uuid id : Learner V).runMsgs msgs = some (l, outs)) :
    outs.map Prod.fst = List.range' 1 (l.num_of_instances - 1)
    ∧ (Learner.new uuid id : Learner V).num_of_instances = 1 := by
  obtain ⟨h1, _, _⟩ := runMsgs_learner_spec msgs (Learner.new uuid id) (l, outs) h rfl
  exact ⟨h1, rfl⟩

/-- Witness for C2 at a concrete learner run of two Learning messages
(instances 1 and 3): only instance 1 is printed and the counter moves to
2. -/
theorem C2_learner_in_order_delivery_witness :
    (Learner.new 6 1 : Learner Nat).runMsgs
        [Message.Phase3 ⟨7, 1, 1⟩, Message.Phase3 ⟨8, 1, 3⟩]
      = some (⟨6, 1, [(1, 7), (3, 8)], 2⟩, [(1, 7)])
    ∧ [(1, 7)].map (Prod.fst (α := Nat) (β := Nat)) = List.range' 1 (2 - 1)
    ∧ (Learner.new 6 1 : Learner Nat).num_of_instances = 1 := by
  have hrun : (Learner.new 6 1 : Learner Nat).runMsgs
      [Message.Phase3 ⟨7, 1, 1⟩, Message.Phase3 ⟨8, 1, 3⟩]
      = some (⟨6, 1, [(1, 7), (3, 8)], 2⟩, [(1, 7)]) := by rfl
  have h := C2_learner_in_order_delivery 6 1 [Message.Phase3 ⟨7, 1, 1⟩, Message.Phase3 ⟨8, 1, 3⟩]
    ⟨6, 1, [(1, 7), (3, 8)], 2⟩ [(1, 7)] hrun
  exact ⟨hrun, h.1, h.2⟩

/-- Claim C3 (confirmed): an acceptor answers a Preparation with a Promise
carrying the current vote and the updated rnd = c_rnd exactly when
c_rnd > rnd, and answers a Proposal with an Acceptance after setting
v_rnd = c_rnd and v_val = Some c_val exactly when c_rnd >= rnd; in the
failing cases the state is unchanged and nothing is sent. -/
theorem C3_acceptor_phase_guards {V : Type} (a : Acceptor V) (c f i : Nat) (cv : V) :
    (((a.promise c f i).2 ≠ []) ↔ (a.acceptor_states i).rnd < c)
    ∧ ((a.acceptor_states i).rnd < c →
        a.promise c f i =
          (a.withState i { a.acceptor_states i with rnd := c },
           [(Dest.proposers, Message.Phase1b ⟨c, (a.acceptor_states i).v_rnd,
              (a.acceptor_states i).v_val, a.uuid, f, i⟩)]))
    ∧ (¬ (a.acceptor_states i).rnd < c → a.promise c f i = (a, []))
    ∧ (((a.accept c cv f i).2 ≠ []) ↔ (a.acceptor_states i).rnd ≤ c)
    ∧ ((a.acceptor_states i).rnd ≤ c →
        a.accept c cv f i =
          (a.withState i { a.acceptor_states i with v_rnd := c, v_val := some cv },
           [(Dest.proposers, Message.Phase2b ⟨c, some cv, a.uuid, f, i⟩)]))
    ∧ (¬ (a.acceptor_states i).rnd ≤ c → a.accept c cv f i = (a, [])) := by
  unfold Acceptor.promise Acceptor.accept Acceptor.withState
  by_cases h1 : (a.acceptor_states i).rnd < c <;>
    by_cases h2 : (a.acceptor_states i).rnd ≤ c <;>
      simp [h1, h2]

/-- Witness for C3 at a fresh acceptor: a Preparation with c_rnd = 1 and a
Proposal with c_rnd = 0 both fire. -/
theorem C3_acceptor_phase_guards_witness :
    ((Acceptor.new 3 1 : Acceptor Nat).promise 1 9 1).2 ≠ []
    ∧ ((Acceptor.new 3 1 : Acceptor Nat).accept 0 5 9 1).2 ≠ [] :=
  ⟨(C3_acceptor_phase_guards (Acceptor.new 3 1 : Acceptor Nat) 1 9 1 5).1.mpr (by decide),
   (C3_acceptor_phase_guards (Acceptor.new 3 1 : Acceptor Nat) 0 9 1 5).2.2.2.1.mpr (by decide)⟩

/-- Claim C4 (confirmed): a proposer sends a Proposal upon a Promise
exactly when, after appending the promise rnd, the received rnd count
reaches the majority and every received rnd equals c_rnd; in that case
the proposed value is the original value when the highest received v_rnd
is 0 and the v_val associated with the highest received v_rnd otherwise;
rnd_received is never cleared (it always grows by exactly the new rnd). -/
theorem C4_proposer_quorum_rule {V : Type} [DecidableEq V] (p : Proposer V) (rnd v_rnd : Nat)
    (v_val : Option V) (i : Nat) :
    ((p.propose rnd v_rnd v_val i).1.proposer_states i).rnd_received
        = (p.proposer_states i).rnd_received ++ [rnd]
    ∧ (((p.propose rnd v_rnd v_val i).2 ≠ []) ↔
        (p.majority_of_acceptors ≤ ((p.proposer_states i).rnd_received ++ [rnd]).length
         ∧ ∀ r ∈ (p.proposer_states i).rnd_received ++ [rnd], r = (p.proposer_states i).c_rnd))
    ∧ ((p.majority_of_acceptors ≤ ((p.proposer_states i).rnd_received ++ [rnd]).length
         ∧ ∀ r ∈ (p.proposer_states i).rnd_received ++ [rnd], r = (p.proposer_states i).c_rnd) →
        (p.propose rnd v_rnd v_val i).2
          = [(Dest.acceptors, Message.Phase2a
              ⟨(p.proposer_states i).c_rnd,
               ((p.proposer_states i).afterPromise rnd v_rnd v_val).pickVal, p.uuid, i⟩)]
        ∧ ((p.propose rnd v_rnd v_val i).1.proposer_states i).c_val
          = ((p.proposer_states i).afterPromise rnd v_rnd v_val).pickVal)
    ∧ (((p.proposer_states i).afterPromise rnd v_rnd v_val).highest_v_rnd_received = 0 →
        ((p.proposer_states i).afterPromise rnd v_rnd v_val).pickVal
          = (p.proposer_states i).value)
    ∧ (((p.proposer_states i).afterPromise rnd v_rnd v_val).highest_v_rnd_received ≠ 0 →
        ((p.proposer_states i).afterPromise rnd v_rnd v_val).pickVal
          = ((p.proposer_states i).afterPromise rnd v_rnd v_val).associated_v_val_received) := by
  have hp0 : ((p.proposer_states i).afterPromise rnd v_rnd v_val).highest_v_rnd_received = 0 →
      ((p.proposer_states i).afterPromise rnd v_rnd v_val).pickVal
        = (p.proposer_states i).value := by
    intro h
    unfold ProposerState.pickVal
    rw [if_pos h, afterPromise_value]
  have hp1 : ((p.proposer_states i).afterPromise rnd v_rnd v_val).highest_v_rnd_received ≠ 0 →
      ((p.proposer_states i).afterPromise rnd v_rnd v_val).pickVal
        = ((p.proposer_states i).afterPromise rnd v_rnd v_val).associated_v_val_received := by
    intro h
    unfold ProposerState.pickVal
    rw [if_neg h]
  rw [propose_eq]
  split_ifs with hmaj hall
  · rw [afterPromise_rnd_received] at hmaj
    refine ⟨by simp [withState_self, afterPromise_rnd_received], ?_, ?_, hp0, hp1⟩
    · constructor
      · intro h
        exact absurd rfl h
      · intro hcon
        exact absurd hcon.1 (Nat.not_le.mpr hmaj)
    · intro hcon
      exact absurd hcon.1 (Nat.not_le.mpr hmaj)
  · rw [afterPromise_rnd_received, afterPromise_c_rnd] at hall
    rw [afterPromise_rnd_received] at hmaj
    refine ⟨?_, ?_, ?_, hp0, hp1⟩
    · simp [withState_self, afterPromise_rnd_received]
    · simp only [ne_eq, List.cons_ne_nil, not_false_eq_true, true_iff]
      exact ⟨Nat.le_of_not_lt hmaj, hall⟩
    · intro _
      constructor
      · rw [afterPromise_c_rnd]
      · simp only [withState_self]
  · rw [afterPromise_rnd_received, afterPromise_c_rnd] at hall
    refine ⟨by simp [withState_self, afterPromise_rnd_received], ?_, ?_, hp0, hp1⟩
    · constructor
      · intro h
        exact absurd rfl h
      · intro hcon
        exact absurd hcon.2 hall
    · intro hcon
      exact absurd hcon.2 hall

/-- Witness for C4 with a single-acceptor majority: the quorum condition
holds immediately and the Proposal is sent. -/
theorem C4_proposer_quorum_rule_witness :
    ((Proposer.new 1 1 1 : Proposer Nat).propose 0 0 none 1).2
      = [(Dest.acceptors, Message.Phase2a ⟨0, none, 1, 1⟩)] := by
  have h := (C4_proposer_quorum_rule (Proposer.new 1 1 1 : Proposer Nat) 0 0 none 1).2.2.1 (by decide)
  exact h.1.trans (by decide)

/-- Counterexample for C5 as stated: a fresh acceptor that accepts round 5
has v_rnd = 5 > rnd = 0, falsifying v_rnd <= rnd after an accept; a second
accept at round 3 overwrites v_val while v_rnd drops from 5 to 3,
falsifying that v_val changes only with strictly increasing v_rnd. -/
theorem C5_acceptor_monotonicity_counterexample :
    (((((Acceptor.new 3 1 : Acceptor Nat).accept 5 1 9 1).1.acceptor_states 1).v_rnd
        ≤ ((((Acceptor.new 3 1 : Acceptor Nat).accept 5 1 9 1).1.acceptor_states 1)).rnd) = False)
    ∧ ((((Acceptor.new 3 1 : Acceptor Nat).accept 5 1 9 1).1.accept 3 2 9 1).1.acceptor_states 1).v_val
        ≠ (((Acceptor.new 3 1 : Acceptor Nat).accept 5 1 9 1).1.acceptor_states 1).v_val
    ∧ ¬ ((((Acceptor.new 3 1 : Acceptor Nat).accept 5 1 9 1).1.acceptor_states 1).v_rnd
        < ((((Acceptor.new 3 1 : Acceptor Nat).accept 5 1 9 1).1.accept 3 2 9 1).1.acceptor_states 1).v_rnd) := by
  refine ⟨?_, by decide, by decide⟩
  simp only [eq_iff_iff, iff_false]
  decide

/-- Claim C5 amended (corrected): across the trace of a single acceptor,
rnd is non-decreasing (per handled message and over any run); after every
accept that fires, v_rnd >= rnd (not v_rnd <= rnd as claimed, since accept
does not raise rnd); and whenever a vote changes v_val, the accepted round
satisfies c_rnd >= rnd and becomes the new v_rnd — it need not exceed the
previous v_rnd, so v_rnd can strictly decrease while v_val changes. -/
theorem C5_acceptor_monotonicity_amended (V : Type) [DecidableEq V] :
    (∀ (a : Acceptor V) (m : Message V) r, a.handleMessage m = some r →
       ∀ i, (a.acceptor_states i).rnd ≤ (r.1.acceptor_states i).rnd)
    ∧ (∀ (a : Acceptor V) (msgs : List (Message V)) r, a.runMsgs msgs = some r →
       ∀ i, (a.acceptor_states i).rnd ≤ (r.1.acceptor_states i).rnd)
    ∧ (∀ (a : Acceptor V) (c : Nat) (v : V) (f i : Nat),
        (a.acceptor_states i).rnd ≤ c →
        ((a.accept c v f i).1.acceptor_states i).rnd
          ≤ ((a.accept c v f i).1.acceptor_states i).v_rnd)
    ∧ (∀ (a : Acceptor V) (c : Nat) (v : V) (f i : Nat),
        ((a.accept c v f i).1.acceptor_states i).v_val ≠ (a.acceptor_states i).v_val →
        ((a.accept c v f i).1.acceptor_states i).v_rnd = c
        ∧ (a.acceptor_states i).rnd ≤ c) := by
  refine ⟨fun a m r h i => handleMessage_rnd_mono a m r h i,
          fun a msgs r h i => runMsgs_rnd_mono msgs a r h i, ?_, ?_⟩
  · intro a c v f i hle
    have h1 : ((a.accept c v f i).1.acceptor_states i)
        = { a.acceptor_states i with v_rnd := c, v_val := some v } := by
      simp only [Acceptor.accept]
      rw [if_pos hle]
      simp [updState]
    rw [h1]
    exact hle
  · intro a c v f i hne
    by_cases hle : (a.acceptor_states i).rnd ≤ c
    · have h1 : ((a.accept c v f i).1.acceptor_states i)
          = { a.acceptor_states i with v_rnd := c, v_val := some v } := by
        simp only [Acceptor.accept]
        rw [if_pos hle]
        simp [updState]
      rw [h1]
      exact ⟨rfl, hle⟩
    · have h1 : (a.accept c v f i).1 = a := by
        simp only [Acceptor.accept]
        rw [if_neg hle]
      rw [h1] at hne
      exact absurd rfl hne

/-- Witness for the amended C5: a fresh acceptor accepting round 5 ends
with rnd <= v_rnd. -/
theorem C5_acceptor_monotonicity_amended_witness :
    (((Acceptor.new 3 1 : Acceptor Nat).accept 5 7 9 1).1.acceptor_states 1).rnd
      ≤ (((Acceptor.new 3 1 : Acceptor Nat).accept 5 7 9 1).1.acceptor_states 1).v_rnd :=
  (C5_acceptor_monotonicity_amended Nat).2.2.1 (Acceptor.new 3 1) 5 7 9 1 (by decide)

/-- Claim C6 (confirmed): handling a Request increments num_of_instances
by exactly one, sets the value of the state of the new instance i to the
requested value, updates that state to c_rnd = (c_rnd + 1) * id, sends
exactly one Preparation with that c_rnd and instance i to the acceptor
group, and leaves every other instance state and all remaining proposer
fields unchanged. -/
theorem C6_request_handling {V : Type} (p : Proposer V) (v : V) :
    (p.prepare v).1.num_of_instances = p.num_of_instances + 1
    ∧ ((p.prepare v).1.proposer_states (p.num_of_instances + 1)).value = some v
    ∧ ((p.prepare v).1.proposer_states (p.num_of_instances + 1)).c_rnd
        = ((p.proposer_states (p.num_of_instances + 1)).c_rnd + 1) * p.id
    ∧ (p.prepare v).2
        = [(Dest.acceptors, Message.Phase1a
            ⟨((p.proposer_states (p.num_of_instances + 1)).c_rnd + 1) * p.id,
             p.uuid, p.num_of_instances + 1⟩)]
    ∧ (∀ j, j ≠ p.num_of_instances + 1 →
        (p.prepare v).1.proposer_states j = p.proposer_states j)
    ∧ (p.prepare v).1.learned_values = p.learned_values
    ∧ (p.prepare v).1.uuid = p.uuid
    ∧ (p.prepare v).1.id = p.id
    ∧ (p.prepare v).1.majority_of_acceptors = p.majority_of_acceptors := by
  unfold Proposer.prepare
  simp [updState]
  intro j hj
  simp [hj]

/-- Witness for the frame condition of C6: instance 2 of a fresh proposer
is untouched by a prepare that opens instance 1. -/
theorem C6_request_handling_witness :
    ∀ j, j ≠ 1 →
      ((Proposer.new 1 1 3 : Proposer Nat).prepare 7).1.proposer_states j
        = (Proposer.new 1 1 3 : Proposer Nat).proposer_states j :=
  (C6_request_handling (Proposer.new 1 1 3 : Proposer Nat) 7).2.2.2.2.1

/-- Counterexample for C8 as stated: an Acceptance addressed to receiver 2
is processed by the proposer with uuid 1 — its v_rnd_received for the
instance grows from empty to one entry instead of being ignored. -/
theorem C8_receiver_filter_counterexample :
    (⟨3, some 5, 9, 2, 1⟩ : Acceptance Nat).receiver_uuid ≠ (Proposer.new 1 1 3 : Proposer Nat).uuid
    ∧ ((Proposer.new 1 1 3 : Proposer Nat).handleAcceptance ⟨3, some 5, 9, 2, 1⟩).map
        (fun r => ((r.1.proposer_states 1).v_rnd_received)) = some [3]
    ∧ ((Proposer.new 1 1 3 : Proposer Nat).proposer_states 1).v_rnd_received = [] := by
  refine ⟨by decide, by decide, by decide⟩

/-- Claim C8 amended (corrected): the receiver field is a soft filter for
Promise (at proposers) and Report (at proposers and learners) — a
recipient with a different uuid leaves its state unchanged and sends
nothing — but Acceptance is processed identically whatever its
receiver_uuid, because Proposer::handle_acceptance never consults it. -/
theorem C8_receiver_filter_amended (V : Type) [DecidableEq V] :
    (∀ (p : Proposer V) (pr : Promise V),
      pr.receiver_uuid ≠ p.uuid → p.handlePromise pr = (p, []))
    ∧ (∀ (p : Proposer V) (r : Report V),
      r.receiver_uuid ≠ p.uuid → p.handleReport r = (p, []))
    ∧ (∀ (l : Learner V) (r : Report V),
      r.receiver_uuid ≠ l.uuid → l.handleReport r = (l, []))
    ∧ (∀ (p : Proposer V) (ac : Acceptance V) (x : Nat),
      p.handleAcceptance { ac with receiver_uuid := x } = p.handleAcceptance ac) := by
  refine ⟨?_, ?_, ?_, ?_⟩
  · intro p pr h
    unfold Proposer.handlePromise
    rw [if_neg h]
  · intro p r h
    unfold Proposer.handleReport
    rw [if_neg h]
  · intro l r h
    unfold Learner.handleReport
    rw [if_neg h]
  · intro p ac x
    cases ac
    rfl

/-- Witness for the amended C8: a Promise whose receiver is 2 is ignored
by the proposer with uuid 1. -/
theorem C8_receiver_filter_amended_witness :
    (Proposer.new 1 1 3 : Proposer Nat).handlePromise ⟨1, 0, none, 3, 2, 1⟩
      = ((Proposer.new 1 1 3 : Proposer Nat), []) :=
  (C8_receiver_filter_amended Nat).1 (Proposer.new 1 1 3) ⟨1, 0, none, 3, 2, 1⟩ (by decide)

/-- Claim C9 (confirmed): a learner that already delivered the value for
instance i (the value is stored and the counter is past i) handles a
second copy of the same Learning by emitting nothing and finishing in the
identical state: the counter and learned_values are unchanged, so the
value is printed exactly once however many equal Learnings arrive. -/
theorem C9_duplicate_learning_idempotent {V : Type} [DecidableEq V] (uuid id : Nat) (msgs : List (Message V))
    (l : Learner V) (outs : List (Nat × V)) (i su : Nat) (v : V)
    (hrun : (Learner.new uuid id : Learner V).runMsgs msgs = some (l, outs))
    (hstored : lookupA l.learned_values i = some v)
    (hdelivered : i < l.num_of_instances) :
    l.handleLearning ⟨v, su, i⟩ = some (l, []) := by
  obtain ⟨_, _, hinv⟩ := runMsgs_learner_spec msgs (Learner.new uuid id) (l, outs) hrun rfl
  unfold Learner.handleLearning
  dsimp only
  rw [hstored]
  dsimp only
  rw [if_pos rfl]
  rw [insertA_self l.learned_values i v hstored]
  have hl : ({ l with learned_values := l.learned_values } : Learner V) = l := rfl
  rw [hl, printLearned_noop l hinv]

/-- Witness for C9: after delivering 7 for instance 1, a duplicate
Learning of 7 for instance 1 is a no-op. -/
theorem C9_duplicate_learning_idempotent_witness :
    (⟨6, 1, [(1, 7)], 2⟩ : Learner Nat).handleLearning ⟨7, 1, 1⟩
      = some ((⟨6, 1, [(1, 7)], 2⟩ : Learner Nat), []) :=
  C9_duplicate_learning_idempotent 6 1 [Message.Phase3 ⟨7, 1, 1⟩] ⟨6, 1, [(1, 7)], 2⟩ [(1, 7)] 1 1 7
    rfl rfl (by decide)

/-- Claim C10 (confirmed): an Acceptance whose v_val is None panics the
proposer before any receiver filtering (handle_acceptance has none), and
a Proposal whose c_val is None panics the acceptor. -/
theorem C10_none_value_panics {V : Type} [DecidableEq V] (p : Proposer V) (a : Acceptor V)
    (v_rnd su ru i c_rnd su2 i2 : Nat) :
    p.handleAcceptance ⟨v_rnd, none, su, ru, i⟩ = none
    ∧ a.handleProposal ⟨c_rnd, none, su2, i2⟩ = none := by
  constructor <;> rfl

end MultiPaxos
